import Mathlib

/-!
Verification of the audio-clock-driven media compositor of the VoxHype
repository.  The definitions below are a shallow embedding of the
TypeScript source: `renderVideo` and the log registry from
`src/utils/logger.ts`, and `extractFramesFromVideo`, `updateSlideshow`
and `handleDownloadVideo` from the application file.  JavaScript numbers
are modelled as rationals (`ℚ`); `Math.floor` is `Int.floor`,
`Math.round` is Mathlib's `round` (both round half towards +∞ on the
inputs that occur here), and the JS `%` operator is the truncated
remainder `jsMod`.
-/

namespace VoxHype

/-- Truncation towards zero, as JavaScript applies to `a / b` inside the
`%` operator. -/
def qtrunc (x : ℚ) : ℤ := if 0 ≤ x then ⌊x⌋ else ⌈x⌉

/-- The JavaScript `%` operator on numbers: `a - b * trunc (a / b)`
(remainder with the sign of the dividend). -/
def jsMod (a b : ℚ) : ℚ := a - b * qtrunc (a / b)

/-- JavaScript `v || d` for an optional numeric field: the default is
used both when the field is absent and when it is `0` (falsy). -/
def jsOr (v : Option ℚ) (d : ℚ) : ℚ :=
  match v with
  | none => d
  | some x => if x = 0 then d else x

/-- The two kinds of visual asset (`asset.type` in the source). -/
inductive AssetType
  | image
  | video
deriving DecidableEq

/-- A visual asset as consumed by the compositor: kind plus the optional
clip in/out points of a video asset (`videoStart` / `videoEnd`). -/
structure VisualAsset where
  type : AssetType
  videoStart : Option ℚ := none
  videoEnd : Option ℚ := none
deriving DecidableEq

/-! ### Scene selection (logger.ts lines 154-157)

`const index = Math.floor(elapsed / sceneDuration);`
`const safeIndex = Math.min(index, assets.length - 1);`
with `sceneDuration = duration / assets.length` (line 130). -/

/-- The raw scene index `Math.floor(elapsed / sceneDuration)`. -/
def sceneIndexRaw (duration : ℚ) (n : ℕ) (t : ℚ) : ℤ :=
  ⌊t / (duration / n)⌋

/-- The clamped scene index `Math.min(index, assets.length - 1)` used by
the recorder's draw loop. -/
def safeSceneIndex (duration : ℚ) (n : ℕ) (t : ℚ) : ℤ :=
  min (sceneIndexRaw duration n t) ((n : ℤ) - 1)

/-! ### Cover fit (logger.ts lines 166-171 and 195-199)

`const scale = Math.max(canvas.width / w, canvas.height / h);`
`const x = (canvas.width / 2) - (w / 2) * scale;`
`const y = (canvas.height / 2) - (h / 2) * scale;`
`ctx.drawImage(src, x, y, w * scale, h * scale);`
The same formula is used for image assets and for video frames. -/

/-- A draw call's destination rectangle. -/
structure DrawRect where
  x : ℚ
  y : ℚ
  w : ℚ
  h : ℚ
deriving DecidableEq

/-- The cover-fit destination rectangle computed by the renderer for a
source of size `srcW × srcH` on a surface of size `surfaceW × surfaceH`. -/
def coverFitRect (surfaceW surfaceH srcW srcH : ℚ) : DrawRect :=
  let scale := max (surfaceW / srcW) (surfaceH / srcH)
  { x := surfaceW / 2 - srcW / 2 * scale
    y := surfaceH / 2 - srcH / 2 * scale
    w := srcW * scale
    h := srcH * scale }

/-- Claim C1: for positive `totalDuration`, at least one asset and
`0 ≤ t ≤ totalDuration`, the recorder's scene index equals
`clamp (⌊t / sceneDuration⌋) 0 (n-1)`, always lies in `[0, n-1]`, and
equals `n - 1` at `t = totalDuration` exactly. -/
theorem safeSceneIndex_eq_clamp (duration : ℚ) (n : ℕ) (t : ℚ)
    (hd : 0 < duration) (hn : 1 ≤ n) (h0 : 0 ≤ t) (ht : t ≤ duration) :
    safeSceneIndex duration n t
        = max 0 (min (sceneIndexRaw duration n t) ((n : ℤ) - 1)) ∧
    0 ≤ safeSceneIndex duration n t ∧
    safeSceneIndex duration n t ≤ (n : ℤ) - 1 ∧
    (t = duration → safeSceneIndex duration n t = (n : ℤ) - 1) := by
  have hn0 : (0 : ℚ) < (n : ℚ) := by exact_mod_cast Nat.lt_of_lt_of_le Nat.zero_lt_one hn
  have hsd : 0 < duration / (n : ℚ) := div_pos hd hn0
  have hraw : 0 ≤ sceneIndexRaw duration n t :=
    Int.floor_nonneg.mpr (div_nonneg h0 hsd.le)
  have hn1 : (0 : ℤ) ≤ (n : ℤ) - 1 := by
    have : (1 : ℤ) ≤ (n : ℤ) := by exact_mod_cast hn
    omega
  have hmin : 0 ≤ min (sceneIndexRaw duration n t) ((n : ℤ) - 1) :=
    le_min hraw hn1
  refine ⟨?_, ?_, ?_, ?_⟩
  · exact (max_eq_right hmin).symm
  · exact hmin
  · exact min_le_right _ _
  · intro hteq
    have hne : duration / (n : ℚ) ≠ 0 := ne_of_gt hsd
    have hq : t / (duration / (n : ℚ)) = (n : ℚ) := by
      rw [hteq, div_div_eq_mul_div, mul_comm, mul_div_assoc,
        div_self (ne_of_gt hd), mul_one]
    have hfl : sceneIndexRaw duration n t = (n : ℤ) := by
      unfold sceneIndexRaw
      rw [hq, Int.floor_natCast]
    unfold safeSceneIndex
    rw [hfl]
    exact min_eq_right (by omega)

/-- Witness for C1: a 30-second narration with 3 assets, sampled at
`t = 30` exactly, selects scene index 2. -/
theorem safeSceneIndex_eq_clamp_witness :
    safeSceneIndex 30 3 30 = (3 : ℤ) - 1 :=
  (safeSceneIndex_eq_clamp 30 3 30 (by norm_num) (by norm_num)
    (by norm_num) (by norm_num)).2.2.2 rfl

/-- Claim C2: for positive source and surface dimensions, the cover-fit
rectangle uses `scale = max (surfaceW/srcW) (surfaceH/srcH)`, covers the
surface on both axes with equality on at least one axis, and is centered
on the surface. -/
theorem coverFitRect_covers (surfaceW surfaceH srcW srcH : ℚ)
    (hsw : 0 < surfaceW) (hsh : 0 < surfaceH)
    (hw : 0 < srcW) (hh : 0 < srcH) :
    surfaceW ≤ (coverFitRect surfaceW surfaceH srcW srcH).w ∧
    surfaceH ≤ (coverFitRect surfaceW surfaceH srcW srcH).h ∧
    ((coverFitRect surfaceW surfaceH srcW srcH).w = surfaceW ∨
      (coverFitRect surfaceW surfaceH srcW srcH).h = surfaceH) ∧
    (coverFitRect surfaceW surfaceH srcW srcH).x
        + (coverFitRect surfaceW surfaceH srcW srcH).w / 2 = surfaceW / 2 ∧
    (coverFitRect surfaceW surfaceH srcW srcH).y
        + (coverFitRect surfaceW surfaceH srcW srcH).h / 2 = surfaceH / 2 := by
  have hW : srcW * (surfaceW / srcW) = surfaceW := by
    field_simp
  have hH : srcH * (surfaceH / srcH) = surfaceH := by
    field_simp
  refine ⟨?_, ?_, ?_, ?_, ?_⟩
  · calc surfaceW = srcW * (surfaceW / srcW) := hW.symm
      _ ≤ srcW * max (surfaceW / srcW) (surfaceH / srcH) :=
        mul_le_mul_of_nonneg_left (le_max_left _ _) hw.le
  · calc surfaceH = srcH * (surfaceH / srcH) := hH.symm
      _ ≤ srcH * max (surfaceW / srcW) (surfaceH / srcH) :=
        mul_le_mul_of_nonneg_left (le_max_right _ _) hh.le
  · rcases max_choice (surfaceW / srcW) (surfaceH / srcH) with hc | hc
    · left
      show srcW * max (surfaceW / srcW) (surfaceH / srcH) = surfaceW
      rw [hc, hW]
    · right
      show srcH * max (surfaceW / srcW) (surfaceH / srcH) = surfaceH
      rw [hc, hH]
  · show surfaceW / 2 - srcW / 2 * _ + srcW * _ / 2 = surfaceW / 2
    ring
  · show surfaceH / 2 - srcH / 2 * _ + srcH * _ / 2 = surfaceH / 2
    ring

/-- Witness for C2: a 100 × 50 source on a 1920 × 1080 surface is scaled
to cover the surface. -/
theorem coverFitRect_covers_witness :
    (1920 : ℚ) ≤ (coverFitRect 1920 1080 100 50).w ∧
    (1080 : ℚ) ≤ (coverFitRect 1920 1080 100 50).h ∧
    ((coverFitRect 1920 1080 100 50).w = 1920 ∨
      (coverFitRect 1920 1080 100 50).h = 1080) ∧
    (coverFitRect 1920 1080 100 50).x
        + (coverFitRect 1920 1080 100 50).w / 2 = 1920 / 2 ∧
    (coverFitRect 1920 1080 100 50).y
        + (coverFitRect 1920 1080 100 50).h / 2 = 1080 / 2 :=
  coverFitRect_covers 1920 1080 100 50 (by norm_num) (by norm_num)
    (by norm_num) (by norm_num)

/-! ### Video clip target time

Recorder (logger.ts lines 176-183):
`const timeInScene = elapsed % sceneDuration;`
`const vStart = asset.videoStart || 0;`
`const vEnd = asset.videoEnd || (vStart + 5);`
`const clipLen = vEnd - vStart;`
`const targetTime = vStart + (timeInScene % clipLen);`

Preview (`updateSlideshow`, lines 493-495):
`const timeInScene = elapsed % sceneDuration;`
`const clipDuration = (asset.videoEnd || 10) - (asset.videoStart || 0);`
`const targetTime = (asset.videoStart || 0) + (timeInScene % clipDuration);` -/

/-- Target playback position computed by the recorder's draw loop. -/
def recorderTargetTime (sceneDuration elapsed : ℚ) (a : VisualAsset) : ℚ :=
  let timeInScene := jsMod elapsed sceneDuration
  let vStart := jsOr a.videoStart 0
  let vEnd := jsOr a.videoEnd (vStart + 5)
  let clipLen := vEnd - vStart
  vStart + jsMod timeInScene clipLen

/-- Target playback position computed by the live preview's
`updateSlideshow`. -/
def previewTargetTime (sceneDuration elapsed : ℚ) (a : VisualAsset) : ℚ :=
  let timeInScene := jsMod elapsed sceneDuration
  let clipDuration := jsOr a.videoEnd 10 - jsOr a.videoStart 0
  jsOr a.videoStart 0 + jsMod timeInScene clipDuration

/-- The spec's formula, written from its words for comparison with the
code: `targetTime = clipStart + ((elapsed mod sceneDuration) mod
(clipEnd - clipStart))` where `clipEnd` defaults to `clipStart + 5` when
unset. -/
def specTargetTime (sceneDuration elapsed clipStart : ℚ)
    (clipEnd : Option ℚ) : ℚ :=
  let ce := clipEnd.getD (clipStart + 5)
  clipStart + jsMod (jsMod elapsed sceneDuration) (ce - clipStart)

/-- Unfolding `jsOr` at an absent field. -/
theorem jsOr_none (d : ℚ) : jsOr none d = d := rfl

/-- Unfolding `jsOr` at a present, nonzero (truthy) field. -/
theorem jsOr_some_of_ne (x d : ℚ) (h : x ≠ 0) : jsOr (some x) d = x := by
  simp [jsOr, h]

/-- For a nonnegative dividend and positive divisor, `jsMod` agrees with
the fractional-part remainder. -/
theorem jsMod_eq_fract (a b : ℚ) (h0 : 0 ≤ a) (hb : 0 < b) :
    jsMod a b = b * Int.fract (a / b) := by
  unfold jsMod qtrunc
  rw [if_pos (div_nonneg h0 hb.le), ← Int.self_sub_floor (a / b), mul_sub,
    mul_div_cancel₀ a (ne_of_gt hb)]

/-- For a nonnegative dividend and positive divisor, `jsMod a b` lies in
`[0, b)`. -/
theorem jsMod_mem_Ico (a b : ℚ) (h0 : 0 ≤ a) (hb : 0 < b) :
    0 ≤ jsMod a b ∧ jsMod a b < b := by
  rw [jsMod_eq_fract a b h0 hb]
  constructor
  · exact mul_nonneg hb.le (Int.fract_nonneg _)
  · calc b * Int.fract (a / b) < b * 1 :=
        (mul_lt_mul_left hb).mpr (Int.fract_lt_one _)
      _ = b := mul_one b

/-- Counterexample to claim C3: in the live preview, with
`clipStart = 2` and `clipEnd` unset, at `sceneDuration = 20` and
`elapsed = 6` the computed target time is 8, not the value 3 demanded by
the claimed default `clipEnd = clipStart + 5` (the preview defaults
`clipEnd` to the absolute value 10 instead). -/
theorem previewTargetTime_ne_spec_default :
    previewTargetTime 20 6 ⟨.video, some 2, none⟩ = 8 ∧
    specTargetTime 20 6 2 none = 3 ∧
    previewTargetTime 20 6 ⟨.video, some 2, none⟩ ≠ specTargetTime 20 6 2 none := by
  have h1 : previewTargetTime 20 6 ⟨.video, some 2, none⟩ = 8 := by
    norm_num [previewTargetTime, jsOr, jsMod, qtrunc]
  have h2 : specTargetTime 20 6 2 none = 3 := by
    norm_num [specTargetTime, jsMod, qtrunc]
  exact ⟨h1, h2, by rw [h1, h2]; norm_num⟩

/-- Claim C3 as amended: the recorder computes
`targetTime = clipStart + ((elapsed mod sceneDuration) mod (clipEnd - clipStart))`
with `clipEnd` defaulting to `clipStart + 5` when unset, while the live
preview uses the same formula but defaults `clipEnd` to the absolute
value 10 when unset; with an explicit nonzero `clipEnd` the two agree,
and for a positive clip window the target always lies in
`[clipStart, clipEnd)` — the clip's in/out window loops. -/
theorem targetTime_defaults_and_window (sd e : ℚ) (vs : Option ℚ) (ce : ℚ)
    (hce : ce ≠ 0) :
    recorderTargetTime sd e ⟨.video, vs, none⟩
        = specTargetTime sd e (jsOr vs 0) none ∧
    previewTargetTime sd e ⟨.video, vs, none⟩
        = jsOr vs 0 + jsMod (jsMod e sd) (10 - jsOr vs 0) ∧
    recorderTargetTime sd e ⟨.video, vs, some ce⟩
        = specTargetTime sd e (jsOr vs 0) (some ce) ∧
    previewTargetTime sd e ⟨.video, vs, some ce⟩
        = specTargetTime sd e (jsOr vs 0) (some ce) ∧
    (0 ≤ e → 0 < sd → jsOr vs 0 < ce →
      jsOr vs 0 ≤ recorderTargetTime sd e ⟨.video, vs, some ce⟩ ∧
      recorderTargetTime sd e ⟨.video, vs, some ce⟩ < ce) := by
  refine ⟨?_, ?_, ?_, ?_, ?_⟩
  · simp only [recorderTargetTime, specTargetTime, jsOr_none, Option.getD_none]
  · simp only [previewTargetTime, jsOr_none]
  · simp only [recorderTargetTime, specTargetTime, Option.getD_some]
    rw [jsOr_some_of_ne ce (jsOr vs 0 + 5) hce]
  · simp only [previewTargetTime, specTargetTime, Option.getD_some]
    rw [jsOr_some_of_ne ce 10 hce]
  · intro he hsd hlt
    have hts : 0 ≤ jsMod e sd := (jsMod_mem_Ico e sd he hsd).1
    have hlen : 0 < ce - jsOr vs 0 := by linarith
    have hwin := jsMod_mem_Ico (jsMod e sd) (ce - jsOr vs 0) hts hlen
    have hrt : recorderTargetTime sd e ⟨.video, vs, some ce⟩
        = jsOr vs 0 + jsMod (jsMod e sd) (ce - jsOr vs 0) := by
      simp only [recorderTargetTime]
      rw [jsOr_some_of_ne ce (jsOr vs 0 + 5) hce]
    rw [hrt]
    constructor
    · linarith [hwin.1]
    · linarith [hwin.2]

/-- Witness for the amended C3, the spec's scenario B: `clipStart = 2`,
`clipEnd = 5`, a 9-second scene, sampled at `elapsed = 4`: the recorder
target lies in `[2, 5)`. -/
theorem targetTime_defaults_and_window_witness :
    2 ≤ recorderTargetTime 9 4 ⟨.video, some 2, some 5⟩ ∧
    recorderTargetTime 9 4 ⟨.video, some 2, some 5⟩ < 5 := by
  have h2 : jsOr (some 2) 0 = 2 := by norm_num [jsOr]
  have h := (targetTime_defaults_and_window 9 4 (some 2) 5
      (by norm_num)).2.2.2.2 (by norm_num) (by norm_num) (by rw [h2]; norm_num)
  rw [h2] at h
  exact h

/-! ### Seek tolerance

Recorder (logger.ts lines 185-189):
`if (Math.abs(videoEl.currentTime - targetTime) > 0.2) videoEl.currentTime = targetTime;`
Preview (lines 497-499): the same with tolerance `0.5`. -/

/-- One sync check of the recorder: returns whether a seek was issued
and the video element's resulting playback position. -/
def recorderSyncStep (current target : ℚ) : Bool × ℚ :=
  if |current - target| > 1/5 then (true, target) else (false, current)

/-- One sync check of the live preview: tolerance 0.5 s. -/
def previewSyncStep (current target : ℚ) : Bool × ℚ :=
  if |current - target| > 1/2 then (true, target) else (false, current)

/-- Claim C4: a seek is issued if and only if the drift exceeds the
fixed tolerance — 0.2 s in the recorder, 0.5 s in the preview; within
tolerance the playback position is left untouched, and an issued seek
moves it to the target. -/
theorem seek_iff_drift_exceeds_tolerance (current target : ℚ) :
    ((recorderSyncStep current target).1 = true ↔ 1/5 < |current - target|) ∧
    ((previewSyncStep current target).1 = true ↔ 1/2 < |current - target|) ∧
    ((recorderSyncStep current target).1 = false →
      (recorderSyncStep current target).2 = current) ∧
    ((previewSyncStep current target).1 = false →
      (previewSyncStep current target).2 = current) ∧
    ((recorderSyncStep current target).1 = true →
      (recorderSyncStep current target).2 = target) ∧
    ((previewSyncStep current target).1 = true →
      (previewSyncStep current target).2 = target) := by
  unfold recorderSyncStep previewSyncStep
  constructor
  · split <;> simp_all
  constructor
  · split <;> simp_all
  constructor
  · split <;> simp_all
  constructor
  · split <;> simp_all
  constructor
  · split <;> simp_all
  · split <;> simp_all

/-- Witness for C4: with zero drift no seek is issued and the position
is unchanged. -/
theorem seek_iff_drift_exceeds_tolerance_witness :
    (recorderSyncStep 3 3).2 = 3 :=
  (seek_iff_drift_exceeds_tolerance 3 3).2.2.1 (by norm_num [recorderSyncStep])

/-! ### Progress reporting (logger.ts lines 144-146)

`const progress = Math.min(100, (elapsed / duration) * 100);`
`onProgress(progress);` -/

/-- The percentage reported to the progress callback on a tick. -/
def renderProgress (duration elapsed : ℚ) : ℚ :=
  min 100 (elapsed / duration * 100)

/-- Claim C7: every report equals `min 100 (elapsed/duration * 100)`,
and since the audio-clock elapsed values of successive ticks are
non-decreasing and nonnegative, the reported percentages lie in
`[0, 100]` and are monotonically non-decreasing. -/
theorem renderProgress_monotone_in_range (duration e1 e2 : ℚ)
    (hd : 0 < duration) (h0 : 0 ≤ e1) (h12 : e1 ≤ e2) :
    renderProgress duration e1 = min 100 (e1 / duration * 100) ∧
    0 ≤ renderProgress duration e1 ∧
    renderProgress duration e1 ≤ renderProgress duration e2 ∧
    renderProgress duration e2 ≤ 100 := by
  refine ⟨rfl, ?_, ?_, min_le_left _ _⟩
  · apply le_min (by norm_num)
    positivity
  · unfold renderProgress
    gcongr

/-- Witness for C7: a 10-second render sampled at elapsed 2 then 5. -/
theorem renderProgress_monotone_in_range_witness :
    renderProgress 10 2 = min 100 ((2 : ℚ) / 10 * 100) ∧
    0 ≤ renderProgress 10 2 ∧
    renderProgress 10 2 ≤ renderProgress 10 5 ∧
    renderProgress 10 5 ≤ 100 :=
  renderProgress_monotone_in_range 10 2 5 (by norm_num) (by norm_num)
    (by norm_num)

/-! ### Frame sampler (`extractFramesFromVideo`, lines 6-64)

`let currentTime = 0;`
`while (currentTime < duration) {`
`  await seekResolve(currentTime);`
`  if (ctx) { ... frames.push({ timestamp: Math.round(currentTime), base64 }); }`
`  currentTime += intervalSeconds;`
`}`
The loop is modelled by `sampleLoop` (frames carry their timestamp, the
only field relevant here).  The JS loop diverges for a nonpositive
`intervalSeconds`, so the total embedding returns the empty list in that
case; no caller passes one (the default is 3 and the app passes 4). -/

/-- The sampler's seek/capture loop, accumulating `Math.round` of each
visited time.  A frame is captured only when the canvas context was
obtained (`if (ctx)`), but the loop runs either way. -/
def sampleLoop (ctx : Bool) (duration intervalSeconds t : ℚ) : List ℤ :=
  if h : 0 < intervalSeconds ∧ t < duration then
    (if ctx then [round t] else []) ++
      sampleLoop ctx duration intervalSeconds (t + intervalSeconds)
  else []
termination_by (⌈(duration - t) / intervalSeconds⌉).toNat
decreasing_by
  obtain ⟨hs, htd⟩ := h
  have hkey : (duration - (t + intervalSeconds)) / intervalSeconds
      = (duration - t) / intervalSeconds - 1 := by
    field_simp
    ring
  have hpos : 0 < ⌈(duration - t) / intervalSeconds⌉ :=
    Int.ceil_pos.mpr (div_pos (by linarith) hs)
  rw [hkey, Int.ceil_sub_one]
  omega

/-- The sampler, `extractFramesFromVideo`: rejects when the source fails
to load metadata (`video.onerror`), otherwise resolves with whatever the
loop accumulated. -/
def extractFramesFromVideo (metadataOk ctxAvailable : Bool)
    (duration : ℚ) (intervalSeconds : ℚ := 3) : Except Unit (List ℤ) :=
  if metadataOk then .ok (sampleLoop ctxAvailable duration intervalSeconds 0)
  else .error ()

/-- With no canvas context the capture guard `if (ctx)` never fires, so
the loop accumulates nothing (auxiliary, by induction on the number of
remaining iterations). -/
theorem sampleLoop_false_aux (d s : ℚ) :
    ∀ n : ℕ, ∀ t : ℚ, (⌈(d - t) / s⌉).toNat = n →
      sampleLoop false d s t = [] := by
  intro n
  induction n with
  | zero =>
    intro t hn
    rw [sampleLoop]
    split
    · rename_i h
      exfalso
      have : 0 < ⌈(d - t) / s⌉ :=
        Int.ceil_pos.mpr (div_pos (by linarith [h.2]) h.1)
      omega
    · rfl
  | succ m ih =>
    intro t hn
    rw [sampleLoop]
    split
    · rename_i h
      have hkey : (d - (t + s)) / s = (d - t) / s - 1 := by
        have := h.1
        field_simp
        ring
      have hm : (⌈(d - (t + s)) / s⌉).toNat = m := by
        rw [hkey, Int.ceil_sub_one]
        have : 0 < ⌈(d - t) / s⌉ :=
          Int.ceil_pos.mpr (div_pos (by linarith [h.2]) h.1)
        omega
      simp [ih (t + s) hm]
    · rfl

/-- With no canvas context the sampler's loop returns no frames. -/
theorem sampleLoop_false_eq_nil (d s t : ℚ) : sampleLoop false d s t = [] :=
  sampleLoop_false_aux d s _ t rfl

/-- Characterization of a successful sampling run: the loop visits
`t, t+s, t+2s, …` while below `duration`, so starting at `t` it produces
`⌈(duration - t)/s⌉` frames and frame `k` carries `round (t + k·s)`
(auxiliary, by induction on the number of remaining iterations). -/
theorem sampleLoop_true_spec (d s : ℚ) (hs : 0 < s) :
    ∀ n : ℕ, ∀ t : ℚ, (⌈(d - t) / s⌉).toNat = n →
      (sampleLoop true d s t).length = n ∧
      ∀ k : ℕ, t + k * s < d →
        (sampleLoop true d s t)[k]? = some (round (t + k * s)) := by
  intro n
  induction n with
  | zero =>
    intro t hn
    have hle : d ≤ t := by
      by_contra hlt
      push_neg at hlt
      have : 0 < ⌈(d - t) / s⌉ :=
        Int.ceil_pos.mpr (div_pos (by linarith) hs)
      omega
    rw [sampleLoop, dif_neg (by push_neg; intro _; linarith)]
    refine ⟨rfl, ?_⟩
    intro k hk
    exfalso
    have : 0 ≤ (k : ℚ) * s := mul_nonneg (by positivity) hs.le
    linarith
  | succ m ih =>
    intro t hn
    have htd : t < d := by
      by_contra hge
      push_neg at hge
      have : ⌈(d - t) / s⌉ ≤ 0 := by
        apply Int.ceil_le.mpr
        push_cast
        apply div_nonpos_of_nonpos_of_nonneg (by linarith) hs.le
      omega
    have hkey : (d - (t + s)) / s = (d - t) / s - 1 := by
      field_simp
      ring
    have hm : (⌈(d - (t + s)) / s⌉).toNat = m := by
      rw [hkey, Int.ceil_sub_one]
      have : 0 < ⌈(d - t) / s⌉ :=
        Int.ceil_pos.mpr (div_pos (by linarith) hs)
      omega
    obtain ⟨ihlen, ihget⟩ := ih (t + s) hm
    rw [sampleLoop, dif_pos ⟨hs, htd⟩]
    constructor
    · simp [ihlen]
    · intro k hk
      cases k with
      | zero => simp
      | succ j =>
        have harg : t + s + (j : ℚ) * s = t + ((j : ℕ) + 1 : ℚ) * s := by
          ring
        have hj : t + s + (j : ℚ) * s < d := by
          rw [harg]
          exact_mod_cast hk
        have hrec := ihget j hj
        rw [harg] at hrec
        simpa using hrec

/-- Claim C5: for a positive duration and positive step, a successful
run of the sampler (metadata loaded, context available) returns exactly
`⌈duration / step⌉` frames, in order, frame `k` stamped
`round (k · step)`. -/
theorem extractFrames_count_and_timestamps (d s : ℚ) (hd : 0 < d) (hs : 0 < s) :
    extractFramesFromVideo true true d s = .ok (sampleLoop true d s 0) ∧
    (sampleLoop true d s 0).length = (⌈d / s⌉).toNat ∧
    ∀ k : ℕ, k < (sampleLoop true d s 0).length →
      (sampleLoop true d s 0)[k]? = some (round ((k : ℚ) * s)) := by
  obtain ⟨hlen, hget⟩ := sampleLoop_true_spec d s hs ((⌈(d - 0) / s⌉).toNat) 0 rfl
  have hd0 : d - 0 = d := by ring
  refine ⟨rfl, by rw [hlen, hd0], ?_⟩
  intro k hk
  rw [hlen, hd0] at hk
  have h1 : (k : ℤ) < ⌈d / s⌉ := by omega
  have h2 : (k : ℚ) < d / s := by exact_mod_cast Int.lt_ceil.mp h1
  have hks : (0 : ℚ) + k * s < d := by
    have := (lt_div_iff₀ hs).mp h2
    linarith
  have := hget k hks
  simpa using this

/-- Witness for C5, the spec's scenario C: a 10-second source sampled
with step 4 yields 3 frames (not 4). -/
theorem extractFrames_count_and_timestamps_witness :
    (sampleLoop true 10 4 0).length = 3 := by
  rw [(extractFrames_count_and_timestamps 10 4 (by norm_num) (by norm_num)).2.1,
    show ⌈(10 : ℚ) / 4⌉ = 3 by rw [Int.ceil_eq_iff]; norm_num]
  rfl

/-! ### Recorder finalization (logger.ts lines 142-152, 88-97)

The draw loop's tick handler:
`if (elapsed >= duration) { setTimeout(() => recorder.stop(), 500); return; }`
and the recorder callbacks:
`recorder.ondataavailable = (e) => { if (e.data.size > 0) chunks.push(e.data); };`
`recorder.onstop = () => { const blob = new Blob(chunks, ...); resolve(blob); };`
We model the session as a transition system over timestamped events; a
timer armed with a 500 ms delay may fire no earlier than its deadline,
which is the host's `setTimeout` guarantee. -/

/-- Control state of the recording session. -/
inductive RecPhase
  | recording
  | stopScheduled (fireAt : ℚ)
  | stopped (stoppedAt : ℚ)
deriving DecidableEq

/-- State of a recording session: control phase, accumulated chunk
sizes, and the assembled output blob (its chunk list) once `onstop` has
run. -/
structure RecState where
  phase : RecPhase
  chunks : List ℕ
  blob : Option (List ℕ)
deriving DecidableEq

/-- Events delivered to the session: a redraw tick at clock time `now`,
a recorder data chunk, the settle-delay timer firing at clock time
`now`, and the recorder's `onstop` callback. -/
inductive RecEvent
  | tick (now : ℚ)
  | dataAvailable (size : ℕ)
  | timerFire (now : ℚ)
  | stopComplete
deriving DecidableEq

/-- One step of the session.  A tick whose elapsed time
(`now - start`) has reached `duration` arms the 500 ms (= 1/2 s) settle
timer instead of stopping the sink; the timer transitions to `stopped`
only once the clock has passed its deadline; `onstop` assembles the
blob from the accumulated chunks. -/
def recStep (start duration : ℚ) (s : RecState) (e : RecEvent) : RecState :=
  match e with
  | .tick now =>
    match s.phase with
    | .recording =>
      if duration ≤ now - start then { s with phase := .stopScheduled (now + 1/2) }
      else s
    | _ => s
  | .dataAvailable size =>
    if 0 < size then { s with chunks := s.chunks ++ [size] } else s
  | .timerFire now =>
    match s.phase with
    | .stopScheduled fireAt => if fireAt ≤ now then { s with phase := .stopped now } else s
    | _ => s
  | .stopComplete =>
    match s.phase with
    | .stopped _ => { s with blob := some s.chunks }
    | _ => s

/-- A whole session: fold the events over the initial state (recording,
no chunks, no blob). -/
def recRun (start duration : ℚ) (es : List RecEvent) : RecState :=
  es.foldl (recStep start duration) ⟨.recording, [], none⟩

/-- The settle-delay invariant: any armed timer deadline, and any actual
stop time, is at least 500 ms past the moment the elapsed time can first
have reached `duration`; the blob exists only once stopped. -/
def RecInv (start duration : ℚ) (s : RecState) : Prop :=
  (∀ f, s.phase = .stopScheduled f → start + duration + 1/2 ≤ f) ∧
  (∀ ts, s.phase = .stopped ts → start + duration + 1/2 ≤ ts) ∧
  (s.blob ≠ none → ∃ ts, s.phase = .stopped ts)

/-- `recStep` preserves the settle-delay invariant. -/
theorem recStep_preserves_inv (start duration : ℚ) (s : RecState)
    (e : RecEvent) (h : RecInv start duration s) :
    RecInv start duration (recStep start duration s e) := by
  obtain ⟨ph, ch, bl⟩ := s
  obtain ⟨hsch, hstop, hblob⟩ := h
  cases e with
  | tick now =>
    cases ph with
    | recording =>
      by_cases hel : duration ≤ now - start
      · simp only [recStep, if_pos hel]
        refine ⟨?_, ?_, ?_⟩
        · intro f hf
          cases hf
          linarith
        · intro ts hts
          cases hts
        · intro hb
          obtain ⟨ts, hts⟩ := hblob hb
          cases hts
      · simp only [recStep, if_neg hel]
        exact ⟨hsch, hstop, hblob⟩
    | stopScheduled f => exact ⟨hsch, hstop, hblob⟩
    | stopped ts => exact ⟨hsch, hstop, hblob⟩
  | dataAvailable size =>
    by_cases hsz : 0 < size
    · simp only [recStep, if_pos hsz]
      refine ⟨hsch, hstop, ?_⟩
      intro hb
      exact hblob hb
    · simp only [recStep, if_neg hsz]
      exact ⟨hsch, hstop, hblob⟩
  | timerFire now =>
    cases ph with
    | recording => exact ⟨hsch, hstop, hblob⟩
    | stopScheduled f =>
      by_cases hfa : f ≤ now
      · simp only [recStep, if_pos hfa]
        refine ⟨?_, ?_, ?_⟩
        · intro g hg
          cases hg
        · intro ts hts
          cases hts
          exact le_trans (hsch f rfl) hfa
        · intro hb
          obtain ⟨ts, hts⟩ := hblob hb
          cases hts
      · simp only [recStep, if_neg hfa]
        exact ⟨hsch, hstop, hblob⟩
    | stopped ts => exact ⟨hsch, hstop, hblob⟩
  | stopComplete =>
    cases ph with
    | recording => exact ⟨hsch, hstop, hblob⟩
    | stopScheduled f => exact ⟨hsch, hstop, hblob⟩
    | stopped ts =>
      refine ⟨?_, ?_, ?_⟩
      · intro f hf
        cases hf
      · intro u hu
        cases hu
        exact hstop ts rfl
      · intro _
        exact ⟨ts, rfl⟩


/-- The invariant holds along any event trace. -/
theorem recRun_inv (start duration : ℚ) (es : List RecEvent) :
    RecInv start duration (recRun start duration es) := by
  suffices h : ∀ s, RecInv start duration s →
      RecInv start duration (es.foldl (recStep start duration) s) by
    apply h
    refine ⟨?_, ?_, ?_⟩
    · intro f hf
      cases hf
    · intro ts hts
      cases hts
    · intro hb
      simp at hb
  induction es with
  | nil =>
    intro s hs
    exact hs
  | cons e es ih =>
    intro s hs
    exact ih _ (recStep_preserves_inv start duration s e hs)

/-- Claim C6: on the tick where elapsed first reaches `totalDuration`
the sink is not stopped — the 500 ms settle timer is armed instead; in
any session trace the sink's stop happens no earlier than 500 ms after
the clock could first have reached `totalDuration`, and the output blob
is only assembled (by `onstop`) once the sink has stopped. -/
theorem recorder_settle_delay (start duration : ℚ) (es : List RecEvent) :
    (∀ now c b, duration ≤ now - start →
      recStep start duration ⟨.recording, c, b⟩ (.tick now)
        = ⟨.stopScheduled (now + 1/2), c, b⟩) ∧
    (∀ ts, (recRun start duration es).phase = .stopped ts →
      start + duration + 1/2 ≤ ts) ∧
    ((recRun start duration es).blob ≠ none →
      ∃ ts, (recRun start duration es).phase = .stopped ts ∧
        start + duration + 1/2 ≤ ts) := by
  obtain ⟨hsch, hstop, hblob⟩ := recRun_inv start duration es
  refine ⟨?_, hstop, ?_⟩
  · intro now c b hel
    simp only [recStep, if_pos hel]
  · intro hb
    obtain ⟨ts, hts⟩ := hblob hb
    exact ⟨ts, hts, hstop ts hts⟩

/-- Witness for C6: a 10-second render whose final tick arrives at clock
time 10; the timer fires at 10.5 s and only then does the stop happen,
at least 500 ms past the end of the narration. -/
theorem recorder_settle_delay_witness :
    (0 : ℚ) + 10 + 1/2 ≤ 21/2 :=
  (recorder_settle_delay 0 10
      [.tick 10, .timerFire (21/2), .stopComplete]).2.1 (21/2)
    (by norm_num [recRun, recStep])

/-! ### Render session start (logger.ts lines 40-140) and the download
handler (application file lines 540-561)

`const ctx = canvas.getContext('2d');`
`if (!ctx) { reject(new Error("Could not get canvas context")); return; }`
`... const sceneDuration = duration / assets.length;`
`loadedImages.then((imgs) => { recorder.start(); ... });`
`renderVideo` performs no check on `assets.length`: with an empty list
JS computes `sceneDuration = duration / 0 = Infinity` (a value ℚ cannot
carry, so the setup record keeps the asset count instead of the
quotient; none of the facts proved below depend on that quotient) and
the recorder is started regardless.

`const handleDownloadVideo = async () => {`
`  if (!audioBuffer || assets.length === 0) return;`
`  ... const blob = await renderVideo(...); ... };` -/

/-- What `renderVideo` has established by the time the draw loop starts:
the asset count used to partition the timeline, and that the recording
sink was started. -/
structure RenderSetup where
  assetCount : ℕ
  recorderStarted : Bool
deriving DecidableEq

/-- The start of a `renderVideo` session: the only fatal check is the
missing drawing context; otherwise the recorder is started (after image
preloading) whatever the asset list is. -/
def renderVideoSetup (ctxAvailable : Bool) (assets : List VisualAsset) :
    Except String RenderSetup :=
  if ctxAvailable = false then Except.error "Could not get canvas context"
  else Except.ok { assetCount := assets.length, recorderStarted := true }

/-- Outcome of the UI download handler. -/
inductive DownloadAction
  | earlyReturn
  | startRender
deriving DecidableEq

/-- `handleDownloadVideo`: guards on a missing audio buffer or an empty
asset list by returning early — silently, raising no error. -/
def handleDownloadVideo (hasAudioBuffer : Bool) (assets : List VisualAsset) :
    DownloadAction :=
  if hasAudioBuffer = false ∨ assets.length = 0 then .earlyReturn
  else .startRender

/-- Counterexample to claim C8: with no canvas context the frame
sampler does not fail — its `if (ctx)` capture guard silently skips
every frame and the run resolves successfully with an empty frame
list. -/
theorem sampler_no_ctx_resolves_empty :
    extractFramesFromVideo true false 10 3 = Except.ok [] := by
  unfold extractFramesFromVideo
  rw [if_pos rfl, sampleLoop_false_eq_nil]

/-- Claim C8 as amended: when no drawing context is obtainable the
compositor/recorder fails immediately with an error, but the frame
sampler completes successfully with an empty frame list instead of
failing. -/
theorem no_ctx_compositor_fatal_sampler_silent
    (assets : List VisualAsset) (d s : ℚ) :
    renderVideoSetup false assets = Except.error "Could not get canvas context" ∧
    extractFramesFromVideo true false d s = Except.ok [] := by
  constructor
  · rfl
  · unfold extractFramesFromVideo
    rw [if_pos rfl, sampleLoop_false_eq_nil]

/-- Counterexample to claim C9: with an empty asset list no error is
raised anywhere — the download handler returns early and silently, and
`renderVideo` invoked directly starts the recording session instead of
failing fast. -/
theorem empty_assets_no_fail_fast :
    handleDownloadVideo true [] = DownloadAction.earlyReturn ∧
    renderVideoSetup true [] = Except.ok ⟨0, true⟩ := by
  constructor
  · rfl
  · rfl

/-- Claim C9 as amended: the download handler never starts a render on
an empty asset list but returns early without an error; `renderVideo`
itself performs no emptiness check — given a drawing context it starts
the recording session for any asset list, the empty one included. -/
theorem empty_assets_amended (hasAudio : Bool) (assets : List VisualAsset) :
    handleDownloadVideo hasAudio [] ≠ DownloadAction.startRender ∧
    (handleDownloadVideo true assets = DownloadAction.startRender ↔
      assets.length ≠ 0) ∧
    renderVideoSetup true assets
      = Except.ok { assetCount := assets.length, recorderStarted := true } := by
  refine ⟨?_, ?_, rfl⟩
  · cases hasAudio <;> simp [handleDownloadVideo]
  · by_cases h : assets.length = 0 <;> simp [handleDownloadVideo, h]

/-! ### Log listener registry (logger.ts lines 11-31)

`const listeners: Listener[] = [];`
`export const addLog = (message, type) => { ... listeners.forEach(l => l(entry)); };`
`export const subscribeToLogs = (listener) => {`
`  listeners.push(listener);`
`  return () => {`
`    const index = listeners.indexOf(listener);`
`    if (index > -1) listeners.splice(index, 1);`
`  };`
`};`
Listeners are identified by a numeric id (JS compares function
references with `===`).  JS `indexOf` returns `-1` when the value is
absent while `List.indexOf` returns the length, so the `index > -1`
test becomes `index < length`. -/

/-- A subscribed listener (identified by reference). -/
abbrev Listener := ℕ

/-- The `type` field of a log entry. -/
inductive LogType
  | info
  | success
  | error
  | warning
  | connect
deriving DecidableEq

/-- A log entry; `id` and `timestamp` come from `Math.random` and
`Date.now`, modelled as inputs. -/
structure LogEntry where
  id : String
  timestamp : ℤ
  message : String
  type : LogType
deriving DecidableEq

/-- `subscribeToLogs` pushes the listener onto the registry. -/
def subscribeToLogs (listeners : List Listener) (l : Listener) :
    List Listener :=
  listeners ++ [l]

/-- The unsubscribe closure returned by `subscribeToLogs`: remove the
first occurrence of the listener, if any. -/
def unsubscribe (l : Listener) (listeners : List Listener) : List Listener :=
  let index := listeners.indexOf l
  if index < listeners.length then listeners.eraseIdx index else listeners

/-- `addLog` delivers the new entry to every listener in registry
order: the list of deliveries performed. -/
def addLog (listeners : List Listener) (entry : LogEntry) :
    List (Listener × LogEntry) :=
  listeners.map (fun l => (l, entry))

/-- `indexOf` of an element absent from the registry is the length. -/
theorem indexOf_of_not_mem (l : Listener) (r : List Listener) (h : l ∉ r) :
    r.indexOf l = r.length := by
  induction r with
  | nil => rfl
  | cons a r ih =>
    simp only [List.mem_cons, not_or] at h
    rw [List.indexOf_cons]
    have hne : (a == l) = false := by
      simpa using fun he => h.1 he.symm
    rw [hne]
    simp [ih h.2]

/-- `indexOf` finds a freshly pushed listener at the end when it is not
otherwise subscribed. -/
theorem indexOf_append_singleton (l : Listener) (r : List Listener)
    (h : l ∉ r) : (r ++ [l]).indexOf l = r.length := by
  induction r with
  | nil => simp
  | cons a r ih =>
    simp only [List.mem_cons, not_or] at h
    simp only [List.cons_append, List.indexOf_cons]
    have hne : (a == l) = false := by
      simpa using fun he => h.1 he.symm
    rw [hne]
    simp [ih h.2]

/-- Removing the freshly pushed last element recovers the registry. -/
theorem eraseIdx_append_singleton (x : Listener) (r : List Listener) :
    (r ++ [x]).eraseIdx r.length = r := by
  induction r with
  | nil => rfl
  | cons a r ih =>
    simp only [List.cons_append, List.length_cons, List.eraseIdx_cons_succ, ih]

/-- Unsubscribing a listener that is not registered is a no-op. -/
theorem unsubscribe_of_not_mem (l : Listener) (r : List Listener)
    (h : l ∉ r) : unsubscribe l r = r := by
  unfold unsubscribe
  rw [indexOf_of_not_mem l r h, if_neg (lt_irrefl _)]

/-- Counterexample to claim C10: subscribe the same listener twice and
call the first unsubscribe handle twice — the second call is not a
no-op, it removes the other occurrence as well. -/
theorem unsubscribe_twice_not_noop :
    unsubscribe 7 (unsubscribe 7 (subscribeToLogs (subscribeToLogs [] 7) 7))
      ≠ unsubscribe 7 (subscribeToLogs (subscribeToLogs [] 7) 7) := by
  decide

/-- Claim C10 as amended: provided the listener is not also subscribed
elsewhere in the registry, its unsubscribe handle removes exactly that
one occurrence (recovering the previous registry) and a second call is
a no-op; every `addLog` delivers the new entry to every listener
subscribed at that moment, in registry order.  (When the same listener
is subscribed more than once, a handle removes the first remaining
occurrence on each call, so repeated calls keep removing.) -/
theorem subscribe_unsubscribe_amended (r : List Listener) (l : Listener)
    (hl : l ∉ r) (entry : LogEntry) :
    unsubscribe l (subscribeToLogs r l) = r ∧
    unsubscribe l (unsubscribe l (subscribeToLogs r l))
      = unsubscribe l (subscribeToLogs r l) ∧
    addLog (subscribeToLogs r l) entry
      = r.map (fun x => (x, entry)) ++ [(l, entry)] ∧
    ∀ x ∈ subscribeToLogs r l, (x, entry) ∈ addLog (subscribeToLogs r l) entry := by
  have h1 : unsubscribe l (subscribeToLogs r l) = r := by
    unfold unsubscribe subscribeToLogs
    rw [indexOf_append_singleton l r hl]
    rw [if_pos (by simp), eraseIdx_append_singleton]
  refine ⟨h1, ?_, ?_, ?_⟩
  · rw [h1, unsubscribe_of_not_mem l r hl]
  · unfold addLog subscribeToLogs
    simp
  · intro x hx
    exact List.mem_map.mpr ⟨x, hx, rfl⟩

/-- Witness for the amended C10: unsubscribing listener 3 from the
registry `[1, 2, 3]` it was just pushed onto recovers `[1, 2]`. -/
theorem subscribe_unsubscribe_amended_witness :
    unsubscribe 3 (subscribeToLogs [1, 2] 3) = [1, 2] :=
  (subscribe_unsubscribe_amended [1, 2] 3 (by decide)
    ⟨"a", 0, "m", LogType.info⟩).1

end VoxHype
